import Mathlib

/-!
Verification development for the jazzhiphop-generator engine.

Shallow embedding conventions:
* Python strings are `List Char` (`PyStr`); Python dicts are association
  lists in insertion order, looked up by `assocFind` (first match).
* Python floats are modelled as exact rationals `ℚ`.
* Python `int()` truncation is `pyInt`; every argument it receives in this
  code base is a nonnegative half-integer or an integer, where truncation
  toward zero agrees with the implementation below.
* Randomness (`random.choice`, `random.randint`, `random.uniform`,
  `random.random`) is modelled by explicit oracle functions indexed by the
  draw site and position; `random.choice` on a list uses the oracle value
  modulo the list length.
* A Python `KeyError`/unbounded loop is modelled by `Option`: `none` means
  the run aborts.
-/

-- Batteries marks the core rational operations `@[irreducible]`, which blocks
-- elaborator-side evaluation of concrete runs; restore default transparency
-- for this file so that `decide` can evaluate the embedded generators.
attribute [local semireducible] Rat.add Rat.sub Rat.mul Rat.inv

abbrev PyStr := List Char

/-- Association-list lookup, first matching key (Python dict access). -/
def assocFind {α : Type} : List (PyStr × α) → PyStr → Option α
  | [], _ => none
  | (a, b) :: r, k => if a = k then some b else assocFind r k

/-- Replace the value stored at the first matching key (in-place dict write). -/
def assocSet {α : Type} : List (PyStr × α) → PyStr → α → List (PyStr × α)
  | [], _, _ => []
  | (a, b) :: r, k, v => if a = k then (a, v) :: r else (a, b) :: assocSet r k v

/-- Python `int()` truncation toward zero. -/
def pyInt (q : ℚ) : ℤ := q.num / q.den

/-- Python `%` on integers with a natural modulus (result is nonnegative). -/
def pyMod (a : ℤ) (n : ℕ) : ℕ := (a % (n : ℤ)).toNat

/-- `random.choice` over a list, driven by an oracle index. -/
def listChoice {α : Type} (l : List α) (c : ℕ) : Option α :=
  l.get? (c % l.length)

/-- Substring test, Python `p in s`. -/
def containsSub (p s : PyStr) : Bool :=
  (List.range (s.length + 1)).any fun i => p.isPrefixOf (s.drop i)

-- Section kinds, style names, chord symbols and other string constants.

def s_intro : PyStr := "intro".data
def s_verse_a : PyStr := "verse_a".data
def s_verse_b : PyStr := "verse_b".data
def s_chorus : PyStr := "chorus".data
def s_chorus_2 : PyStr := "chorus_2".data
def s_outro : PyStr := "outro".data
def s_bridge : PyStr := "bridge".data
def s_solo_section : PyStr := "solo_section".data
def s_head : PyStr := "head".data

def s_standard : PyStr := "standard".data
def s_extended : PyStr := "extended".data
def s_simple : PyStr := "simple".data
def s_jazz_standard : PyStr := "jazz_standard".data

def s_I : PyStr := "I".data
def s_ii : PyStr := "ii".data
def s_iii : PyStr := "iii".data
def s_IV : PyStr := "IV".data
def s_V : PyStr := "V".data
def s_vi : PyStr := "vi".data
def s_vii : PyStr := "vii".data
def s_i : PyStr := "i".data
def s_III : PyStr := "III".data
def s_iv : PyStr := "iv".data
def s_v : PyStr := "v".data
def s_VI : PyStr := "VI".data
def s_VII : PyStr := "VII".data

def s_Imaj7 : PyStr := "Imaj7".data
def s_I7 : PyStr := "I7".data
def s_ii7 : PyStr := "ii7".data
def s_iii7 : PyStr := "iii7".data
def s_IV7 : PyStr := "IV7".data
def s_IVmaj7 : PyStr := "IVmaj7".data
def s_iv7 : PyStr := "iv7".data
def s_V7 : PyStr := "V7".data
def s_vi7 : PyStr := "vi7".data
def s_vii7 : PyStr := "vii7".data
def s_VI7 : PyStr := "VI7".data

def s_maj7 : PyStr := "maj7".data
def s_dom7 : PyStr := "7".data
def s_m7 : PyStr := "m7".data
def s_dim7 : PyStr := "dim7".data
def s_rootless : PyStr := "rootless".data
def s_block : PyStr := "block".data

def s_kick : PyStr := "kick".data
def s_snare : PyStr := "snare".data
def s_hihat_closed : PyStr := "hihat_closed".data
def s_hihat_open : PyStr := "hihat_open".data
def s_crash : PyStr := "crash".data
def s_ride : PyStr := "ride".data
def s_rim : PyStr := "rim".data
def s_tom_low : PyStr := "tom_low".data
def s_tom_mid : PyStr := "tom_mid".data
def s_tom_high : PyStr := "tom_high".data

def s_root_fifth : PyStr := "root_fifth".data
def s_walking : PyStr := "walking".data
def s_chord_tones : PyStr := "chord_tones".data
def s_chromatic : PyStr := "chromatic".data
def s_octave_jump : PyStr := "octave_jump".data
def s_scalar : PyStr := "scalar".data
def s_arpeggiated : PyStr := "arpeggiated".data
def s_bluesy : PyStr := "bluesy".data

-- Data model.

/-- A `pretty_midi.Note`: pitch, start time, end time (seconds), velocity. -/
structure Note where
  pitch : ℤ
  start : ℚ
  stop : ℚ
  velocity : ℤ
deriving DecidableEq

/-- A `pretty_midi.Instrument`: program number, drum flag, note list. -/
structure Instrument where
  program : ℕ
  isDrum : Bool
  notes : List Note
deriving DecidableEq

-- Scale models (`_get_scale_degrees` in chord_progressions.py /
-- piano_voicings.py, and the bass-register copy in bass_lines.py).

/-- Key-root table used by JazzChords and JazzPiano (middle register). -/
def key_roots_mid : List (PyStr × ℤ) :=
  [("C".data, 60), ("Db".data, 61), ("D".data, 62), ("Eb".data, 63),
   ("E".data, 64), ("F".data, 65), ("Gb".data, 66), ("G".data, 67),
   ("Ab".data, 68), ("A".data, 69), ("Bb".data, 70), ("B".data, 71),
   ("Dm".data, 62), ("Em".data, 64), ("Am".data, 69), ("Fm".data, 65),
   ("Gm".data, 67), ("Cm".data, 60)]

/-- Key-root table used by SmoothBass (bass register). -/
def key_roots_bass : List (PyStr × ℤ) :=
  [("C".data, 36), ("Db".data, 37), ("D".data, 38), ("Eb".data, 39),
   ("E".data, 40), ("F".data, 41), ("Gb".data, 42), ("G".data, 43),
   ("Ab".data, 44), ("A".data, 45), ("Bb".data, 46), ("B".data, 47),
   ("Dm".data, 38), ("Em".data, 40), ("Am".data, 45), ("Fm".data, 41),
   ("Gm".data, 43), ("Cm".data, 36)]

/-- Interval pattern: major if the key name has no `m`, else natural minor. -/
def scale_intervals (key : PyStr) : List ℤ :=
  if ('m' : Char) ∈ key then [0, 2, 3, 5, 7, 8, 10] else [0, 2, 4, 5, 7, 9, 11]

/-- `_get_scale_degrees` of JazzChords / JazzPiano (default root 60). -/
def get_scale_degrees (key : PyStr) : List ℤ :=
  let root := (assocFind key_roots_mid key).getD 60
  (scale_intervals key).map fun iv => root + iv

/-- `_get_scale_degrees` of SmoothBass (default root 36). -/
def get_scale_degrees_bass (key : PyStr) : List ℤ :=
  let root := (assocFind key_roots_bass key).getD 36
  (scale_intervals key).map fun iv => root + iv

-- Chord-symbol parsing.

/-- The `degree_map` dict after Python duplicate-key resolution
(`ii` appears twice with the same value). -/
def degree_map : List (PyStr × ℕ) :=
  [(s_I, 0), (s_ii, 1), (s_iii, 2), (s_IV, 3), (s_V, 4), (s_vi, 5), (s_vii, 6),
   (s_i, 0), (s_III, 2), (s_iv, 3), (s_v, 4), (s_VI, 5), (s_VII, 6)]

/-- `chord_symbol.startswith((p1, ..., pn))`. -/
def startsWithAny (ps : List PyStr) (s : PyStr) : Bool :=
  ps.any fun p => p.isPrefixOf s

/-- Root/quality extraction in `JazzPiano._get_chord_voicing`
(and identically in `SmoothBass._chord_to_bass_notes` for the root):
the lowercase multi-letter branch always slices two characters. -/
def parse_piano (sym : PyStr) : Option (ℕ × PyStr) :=
  if startsWithAny [s_ii, s_iii, s_vi, s_vii] sym then
    (assocFind degree_map (sym.take 2)).map fun d => (d, sym.drop 2)
  else
    (assocFind degree_map (sym.take 1)).map fun d => (d, sym.drop 1)

/-- Root/quality extraction in `JazzChords._chord_to_notes`, which adds an
explicit uppercase `I`/`V` branch and a final two-character branch. -/
def parse_chords (sym : PyStr) : Option (ℕ × PyStr) :=
  if startsWithAny [s_ii, s_iii, s_vi, s_vii] sym then
    (assocFind degree_map (sym.take 2)).map fun d => (d, sym.drop 2)
  else if startsWithAny [s_I, s_V] sym then
    (assocFind degree_map (sym.take 1)).map fun d => (d, sym.drop 1)
  else
    (assocFind degree_map (sym.take 2)).map fun d => (d, sym.drop 2)

/-- Root extraction in `SmoothBass._chord_to_bass_notes` (quality unused). -/
def parse_bass_root (sym : PyStr) : Option ℕ :=
  if startsWithAny [s_ii, s_iii, s_vi, s_vii] sym then
    assocFind degree_map (sym.take 2)
  else
    assocFind degree_map (sym.take 1)

-- Voicings.

/-- Quality → intervals in `JazzChords._chord_to_notes`. -/
def chord_quality_intervals (q : PyStr) : List ℤ :=
  if q = s_maj7 then [0, 4, 7, 11]
  else if q = s_dom7 then [0, 4, 7, 10]
  else if q = s_m7 then [0, 3, 7, 10]
  else if q = s_dim7 then [0, 3, 6, 9]
  else [0, 4, 7]

/-- `JazzChords._chord_to_notes`. -/
def chord_to_notes (scale : List ℤ) (sym : PyStr) (octave : ℤ) : Option (List ℤ) :=
  (parse_chords sym).map fun p =>
    let root := scale.getD p.1 0 + (octave - 4) * 12
    (chord_quality_intervals p.2).map fun iv => root + iv

/-- Quality → intervals in `JazzPiano._get_chord_voicing` (rootless branch). -/
def rootless_intervals (q : PyStr) : List ℤ :=
  if q = s_maj7 then [4, 7, 11, 14]
  else if q = s_dom7 then [4, 9, 10, 14]
  else if q = s_m7 then [3, 7, 10, 14]
  else [4, 7, 11]

/-- Quality → intervals in `JazzPiano._get_chord_voicing` (block branch). -/
def block_intervals (q : PyStr) : List ℤ :=
  if q = s_maj7 then [0, 4, 7, 11]
  else if q = s_dom7 then [0, 4, 7, 10]
  else if q = s_m7 then [0, 3, 7, 10]
  else [0, 4, 7]

/-- `JazzPiano._get_chord_voicing`. -/
def get_chord_voicing (scale : List ℤ) (sym : PyStr) (octave : ℤ)
    (voicing_type : PyStr) : Option (List ℤ) :=
  (parse_piano sym).map fun p =>
    let root := scale.getD p.1 0 + (octave - 4) * 12
    let ivs := if voicing_type = s_rootless then rootless_intervals p.2
               else block_intervals p.2
    ivs.map fun iv => root + iv

/-- `SmoothBass._chord_to_bass_notes`: root plus fixed offsets
3 (approximate third), 7 (fifth), 10 (approximate seventh), 12 (octave),
regardless of the chord quality. -/
def chord_to_bass_notes (scale : List ℤ) (sym : PyStr) : Option (List ℤ) :=
  (parse_bass_root sym).map fun d =>
    let root := scale.getD d 0
    [root, root + 3, root + 7, root + 10, root + 12]

-- Chord-progression catalog and `JazzChords.get_progression`.

abbrev Catalog := List (PyStr × List (List PyStr))

/-- `JazzChords.progressions` as built by `__init__`. -/
def init_progressions : Catalog :=
  [(s_intro,
    [[s_Imaj7, s_vi7, s_ii7, s_V7],
     [s_Imaj7, s_IV7, s_iii7, s_vi7],
     [s_vi7, s_ii7, s_V7, s_Imaj7]]),
   (s_verse_a,
    [[s_Imaj7, s_vi7, s_ii7, s_V7, s_iii7, s_vi7, s_ii7, s_V7],
     [s_Imaj7, s_I7, s_IVmaj7, s_iv7, s_iii7, s_vi7, s_ii7, s_V7],
     [s_vi7, s_ii7, s_V7, s_Imaj7, s_vi7, s_ii7, s_V7, s_Imaj7]]),
   (s_verse_b,
    [[s_IVmaj7, s_iv7, s_iii7, s_vi7, s_ii7, s_V7, s_Imaj7, s_V7],
     [s_Imaj7, s_vi7, s_IVmaj7, s_IV7, s_iii7, s_vi7, s_ii7, s_V7],
     [s_vi7, s_V7, s_Imaj7, s_vi7, s_ii7, s_V7, s_Imaj7, s_Imaj7]]),
   (s_chorus,
    [[s_Imaj7, s_vi7, s_ii7, s_V7, s_Imaj7, s_vi7, s_ii7, s_V7],
     [s_IVmaj7, s_V7, s_iii7, s_vi7, s_ii7, s_V7, s_Imaj7, s_V7],
     [s_vi7, s_ii7, s_V7, s_Imaj7, s_IVmaj7, s_iii7, s_ii7, s_V7]]),
   (s_chorus_2,
    [[s_Imaj7, s_I7, s_IVmaj7, s_iv7, s_iii7, s_VI7, s_ii7, s_V7],
     [s_vi7, s_ii7, s_V7, s_Imaj7, s_vi7, s_ii7, s_V7, s_Imaj7],
     [s_IVmaj7, s_V7, s_vi7, s_iii7, s_ii7, s_V7, s_Imaj7, s_V7]]),
   (s_outro,
    [[s_ii7, s_V7, s_Imaj7, s_Imaj7],
     [s_vi7, s_ii7, s_V7, s_Imaj7],
     [s_IVmaj7, s_V7, s_Imaj7, s_Imaj7]])]

/-- The `while len(progression) < bars: progression.extend(progression[:bars -
len(progression)])` loop.  Each iteration appends at least one element when the
list is nonempty, so `bars` units of fuel always suffice; an empty list with
`bars > 0` (which would loop forever in the source) is diverted to `none` by
the caller before reaching this definition. -/
def extendLoop : ℕ → List PyStr → ℕ → List PyStr
  | 0, t, _ => t
  | fuel + 1, t, bars =>
    if bars ≤ t.length ∨ t.length = 0 then t
    else extendLoop fuel (t ++ t.take (bars - t.length)) bars

/-- The key actually consulted: the requested section if present, else the
`verse_a` fallback of `self.progressions.get(section, ...)`. -/
def progressionKey (cat : Catalog) (kind : PyStr) : PyStr :=
  if (assocFind cat kind).isSome then kind else s_verse_a

/-- The template that `random.choice(available_progressions)` aliases. -/
def selected_template (cat : Catalog) (kind : PyStr) (c : ℕ) :
    Option (List PyStr) :=
  (assocFind cat (progressionKey cat kind)).bind fun ts =>
    ts.get? (c % ts.length)

/-- `JazzChords.get_progression`.  The chosen template is a reference into the
stored catalog, so the `extend` writes back into it; the returned catalog
reflects that mutation. -/
def get_progression (cat : Catalog) (kind : PyStr) (bars c : ℕ) :
    Option (List PyStr × Catalog) :=
  (assocFind cat (progressionKey cat kind)).bind fun ts =>
    (ts.get? (c % ts.length)).bind fun t =>
      if t.length = 0 ∧ 0 < bars then none
      else
        let stored := extendLoop bars t bars
        some (stored.take bars,
          assocSet cat (progressionKey cat kind) (ts.set (c % ts.length) stored))

/-- Reference description of cyclic extension: element `i` of the result is
element `i mod length` of the template. -/
def cycleTake (t : List PyStr) (n : ℕ) : List PyStr :=
  (List.range n).map fun i => t.getD (i % t.length) []

lemma cycleTake_length (t : List PyStr) (n : ℕ) : (cycleTake t n).length = n := by
  simp [cycleTake]

lemma cycleTake_self (t : List PyStr) : cycleTake t t.length = t := by
  apply List.ext_getElem (by simp [cycleTake])
  intro i h1 h2
  simp [cycleTake, Nat.mod_eq_of_lt h2, List.getD_eq_getElem?_getD,
    List.getElem?_eq_getElem h2]

lemma cycleTake_append (t : List PyStr) (m j : ℕ) (hm : m % t.length = 0) :
    cycleTake t m ++ cycleTake t j = cycleTake t (m + j) := by
  simp only [cycleTake, List.range_add, List.map_append, List.map_map]
  congr 1
  apply List.map_congr_left
  intro i _
  simp [Function.comp, Nat.add_mod, hm]

lemma cycleTake_take (t : List PyStr) (m j : ℕ) :
    (cycleTake t m).take j = cycleTake t (min j m) := by
  simp only [cycleTake, ← List.map_take, List.take_range]

lemma extendLoop_of_le (fuel : ℕ) (cur : List PyStr) (bars : ℕ)
    (h : bars ≤ cur.length) : extendLoop fuel cur bars = cur := by
  cases fuel <;> simp [extendLoop, h]

lemma extendLoop_cycle (t : List PyStr) (bars : ℕ) :
    ∀ fuel m, 1 ≤ m → m % t.length = 0 → bars ≤ m + fuel →
      extendLoop fuel (cycleTake t m) bars = cycleTake t (max m bars) := by
  intro fuel
  induction fuel with
  | zero =>
    intro m h1 hm hb
    have hbm : bars ≤ m := by omega
    rw [extendLoop, Nat.max_eq_left hbm]
  | succ fuel ih =>
    intro m h1 hm hb
    by_cases hmb : bars ≤ m
    · rw [extendLoop_of_le _ _ _ (by rw [cycleTake_length]; exact hmb),
        Nat.max_eq_left hmb]
    · push_neg at hmb
      rw [extendLoop, cycleTake_length, if_neg (by omega)]
      rw [cycleTake_take, cycleTake_append t m (min (bars - m) m) hm]
      rcases le_or_lt m (bars - m) with hcase | hcase
      · have hkm : min (bars - m) m = m := Nat.min_eq_right hcase
        rw [hkm]
        rw [ih (m + m) (by omega) (by simp [Nat.add_mod, hm]) (by omega)]
        have h2m : m + m ≤ bars := by omega
        rw [Nat.max_eq_right h2m, Nat.max_eq_right (by omega : m ≤ bars)]
      · have hkm : min (bars - m) m = bars - m := Nat.min_eq_left (le_of_lt hcase)
        rw [hkm]
        have hmb' : m + (bars - m) = bars := by omega
        rw [hmb']
        rw [extendLoop_of_le _ _ _ (by rw [cycleTake_length])]
        rw [Nat.max_eq_right (le_of_lt hmb)]

lemma list_set_of_get? {α : Type} (l : List α) (i : ℕ) (x : α)
    (h : l.get? i = some x) : l.set i x = l := by
  induction l generalizing i with
  | nil => simp at h
  | cons a r ih =>
    cases i with
    | zero => simp_all
    | succ j => simp_all [List.set]

lemma assocSet_of_find {α : Type} (cat : List (PyStr × α)) (k : PyStr) (v : α)
    (h : assocFind cat k = some v) : assocSet cat k v = cat := by
  induction cat with
  | nil => simp [assocFind] at h
  | cons e r ih =>
    obtain ⟨a, b⟩ := e
    by_cases hk : a = k
    · rw [assocFind, if_pos hk] at h
      rw [assocSet, if_pos hk]
      simp_all
    · rw [assocFind, if_neg hk] at h
      rw [assocSet, if_neg hk, ih h]

/-- C5: for every section kind and bar count, `get_progression` returns a list
of exactly `bars` chord symbols obtained by cyclically extending (or
truncating) the selected nonempty template: entry `i` of the result is entry
`i mod length` of the template. -/
theorem get_progression_cyclic (cat : Catalog) (kind : PyStr) (bars c : ℕ)
    (t : List PyStr) (hsel : selected_template cat kind c = some t)
    (ht : t ≠ []) :
    ∃ cat2, get_progression cat kind bars c = some (cycleTake t bars, cat2) ∧
      (cycleTake t bars).length = bars := by
  obtain ⟨ts, hfind, hget⟩ := Option.bind_eq_some.mp hsel
  have hL : 1 ≤ t.length := List.length_pos.mpr ht
  have hcond : ¬(t.length = 0 ∧ 0 < bars) := by omega
  have hstored : extendLoop bars t bars = cycleTake t (max t.length bars) := by
    conv_lhs => rw [← cycleTake_self t]
    exact extendLoop_cycle t bars bars t.length hL (Nat.mod_self _) (by omega)
  refine ⟨assocSet cat (progressionKey cat kind)
    (ts.set (c % ts.length) (extendLoop bars t bars)), ?_, cycleTake_length t bars⟩
  simp only [get_progression, hfind, Option.some_bind, hget, if_neg hcond]
  rw [hstored, cycleTake_take, Nat.min_eq_left (le_max_right _ _)]

/-- Witness for C5: the first intro template (4 chords) stretched to 7 bars. -/
theorem get_progression_cyclic_witness :
    (get_progression init_progressions s_intro 7 0).map Prod.fst =
      some (cycleTake [s_Imaj7, s_vi7, s_ii7, s_V7] 7) ∧
    (cycleTake [s_Imaj7, s_vi7, s_ii7, s_V7] 7).length = 7 := by
  obtain ⟨cat2, h1, h2⟩ :=
    get_progression_cyclic init_progressions s_intro 7 0
      [s_Imaj7, s_vi7, s_ii7, s_V7] (by decide) (by decide)
  exact ⟨by rw [h1]; rfl, h2⟩

/-- C9 counterexample: requesting 8 bars of `intro` (whose chosen template has
4 chords) extends the stored template in place, so the catalog after the call
differs from the catalog before it. -/
theorem get_progression_mutates :
    (get_progression init_progressions s_intro 8 0).map Prod.snd ≠
      some init_progressions := by decide

/-- C9 (amended): `get_progression` leaves the stored catalog unchanged
whenever the requested bar count does not exceed the chosen template's length;
a longer request extends the stored template in place. -/
theorem get_progression_frame (cat : Catalog) (kind : PyStr) (bars c : ℕ)
    (t : List PyStr) (hsel : selected_template cat kind c = some t)
    (hle : bars ≤ t.length) :
    get_progression cat kind bars c = some (t.take bars, cat) := by
  obtain ⟨ts, hfind, hget⟩ := Option.bind_eq_some.mp hsel
  have hcond : ¬(t.length = 0 ∧ 0 < bars) := by omega
  simp only [get_progression, hfind, Option.some_bind, hget, if_neg hcond]
  rw [extendLoop_of_le _ _ _ hle, list_set_of_get? _ _ _ hget,
    assocSet_of_find _ _ _ hfind]

/-- Witness for C9 (amended): a 4-bar request on the 4-chord intro template
returns the template and leaves the catalog untouched. -/
theorem get_progression_frame_witness :
    get_progression init_progressions s_intro 4 0 =
      some (([s_Imaj7, s_vi7, s_ii7, s_V7]).take 4, init_progressions) :=
  get_progression_frame init_progressions s_intro 4 0 _ (by decide) (by decide)

-- Piano comping (`JazzPiano.generate_comping`).

/-- `JazzPiano.comp_patterns` (16th-note grids). -/
def comp_patterns : List (PyStr × List (List ℕ)) :=
  [(s_verse_a,
    [[0, 0, 1, 0, 0, 0, 0, 0, 0, 0, 1, 0, 0, 0, 0, 0],
     [0, 0, 1, 0, 0, 0, 1, 0, 0, 0, 1, 0, 0, 0, 0, 0],
     [1, 0, 0, 0, 0, 0, 1, 0, 0, 0, 0, 0, 1, 0, 0, 0]]),
   (s_verse_b,
    [[0, 0, 1, 0, 0, 1, 0, 0, 0, 0, 1, 0, 0, 1, 0, 0],
     [0, 0, 0, 1, 0, 0, 1, 0, 0, 0, 0, 1, 0, 0, 1, 0],
     [1, 0, 0, 0, 0, 0, 0, 1, 0, 0, 1, 0, 0, 0, 0, 1]]),
   (s_chorus,
    [[0, 0, 1, 0, 0, 1, 1, 0, 0, 0, 1, 0, 0, 1, 0, 0],
     [1, 0, 0, 1, 0, 0, 1, 0, 1, 0, 0, 1, 0, 0, 1, 0],
     [0, 1, 1, 0, 0, 1, 0, 1, 0, 1, 1, 0, 0, 1, 0, 0]]),
   (s_chorus_2,
    [[0, 0, 1, 1, 0, 0, 1, 0, 0, 0, 1, 1, 0, 0, 1, 0],
     [1, 0, 0, 0, 1, 0, 1, 0, 1, 0, 0, 0, 1, 0, 1, 0]]),
   (s_outro,
    [[0, 0, 1, 0, 0, 0, 0, 0, 0, 0, 1, 0, 0, 0, 0, 0],
     [1, 0, 0, 0, 0, 0, 0, 0, 1, 0, 0, 0, 0, 0, 0, 0]])]

/-- Section type chosen once per call from the progression length
(`generate_comping`, lines 113-118). -/
def comping_section (n : ℕ) : PyStr :=
  if n ≤ 4 then s_intro else if n ≤ 8 then s_verse_a else s_chorus

/-- The rhythm grid comping samples: the pattern set for the length-derived
section kind (`.get(section, comp_patterns['verse_a'])`), indexed by the
choice oracle. -/
def selected_comp_rhythm (n pc : ℕ) : Option (List ℕ) :=
  listChoice ((assocFind comp_patterns (comping_section n)).getD
    ((assocFind comp_patterns s_verse_a).getD [])) pc

/-- The `for step, hit in enumerate(rhythm_pattern)` body: a hit at step `< 4`
emits one note per voicing pitch; the timing jitter is added to the start
only, after the end has been computed. -/
def comping_steps_go (v : List ℤ) (t sixteenth : ℚ) (jt : ℕ → ℚ)
    (jv : ℕ → ℤ) : List ℕ → ℕ → List Note
  | [], _ => []
  | hit :: rest, s =>
    (if hit ≠ 0 ∧ s < 4 then
      v.map fun p =>
        { pitch := p
          start := (t + (s : ℚ) * sixteenth) + jt s
          stop := (t + (s : ℚ) * sixteenth) + sixteenth * 2
          velocity := max 40 (min 80 (65 + jv s)) }
    else []) ++ comping_steps_go v t sixteenth jt jv rest (s + 1)

/-- The per-chord loop of `generate_comping`, threading the running time and
breaking once it reaches `start_time + duration`. -/
def generate_comping_go (scale : List ℤ) (rhythm : List ℕ) (st dur cd : ℚ)
    (jt : ℕ → ℕ → ℚ) (jv : ℕ → ℕ → ℤ) : List PyStr → ℕ → ℚ → Option (List Note)
  | [], _, _ => some []
  | ch :: rest, c, t =>
    if st + dur ≤ t then some []
    else
      (get_chord_voicing scale ch 4 s_rootless).bind fun v =>
        (generate_comping_go scale rhythm st dur cd jt jv rest (c + 1) (t + cd)).map
          fun ns => comping_steps_go v t (cd / 4) (jt c) (jv c) rhythm 0 ++ ns

/-- `JazzPiano.generate_comping`.  `chord_duration = duration / len(progression)`
(a zero-division error on an empty progression is modelled by `none`);
`sixteenth_duration = chord_duration / 4`. -/
def generate_comping (scale : List ℤ) (prog : List PyStr) (st dur : ℚ)
    (pc : ℕ) (jt : ℕ → ℕ → ℚ) (jv : ℕ → ℕ → ℤ) : Option Instrument :=
  (selected_comp_rhythm prog.length pc).bind fun rhythm =>
    if prog.length = 0 then none
    else
      let cd := dur / (prog.length : ℚ)
      (generate_comping_go scale rhythm st dur cd jt jv prog 0 st).map
        fun ns => { program := 0, isDrum := false, notes := ns }

-- Bass lines (`SmoothBass`).

/-- `SmoothBass.rhythmic_patterns`. -/
def rhythmic_patterns : List (PyStr × List (List ℕ)) :=
  [(s_verse_a,
    [[1, 0, 0, 0, 1, 0, 1, 0, 1, 0, 0, 0, 0, 0, 1, 0],
     [1, 0, 0, 1, 0, 0, 1, 0, 1, 0, 0, 0, 1, 0, 0, 0],
     [1, 0, 1, 0, 0, 0, 1, 0, 1, 0, 0, 1, 0, 0, 0, 0]]),
   (s_verse_b,
    [[1, 0, 0, 0, 0, 1, 1, 0, 1, 0, 0, 0, 1, 0, 1, 0],
     [1, 0, 1, 0, 1, 0, 0, 0, 1, 0, 0, 1, 0, 0, 1, 0],
     [1, 0, 0, 1, 0, 0, 1, 0, 0, 1, 0, 0, 1, 0, 0, 0]]),
   (s_chorus,
    [[1, 0, 0, 0, 1, 0, 1, 0, 1, 0, 1, 0, 1, 0, 0, 0],
     [1, 0, 1, 0, 0, 1, 1, 0, 1, 0, 0, 1, 0, 1, 1, 0],
     [1, 0, 0, 1, 0, 0, 1, 1, 1, 0, 0, 0, 1, 0, 1, 0]]),
   (s_chorus_2,
    [[1, 0, 0, 0, 1, 1, 0, 0, 1, 0, 1, 0, 0, 1, 0, 0],
     [1, 0, 1, 0, 1, 0, 1, 0, 1, 0, 0, 1, 1, 0, 0, 0]]),
   (s_outro,
    [[1, 0, 0, 0, 0, 0, 1, 0, 1, 0, 0, 0, 0, 0, 0, 0],
     [1, 0, 0, 0, 1, 0, 0, 0, 1, 0, 0, 0, 1, 0, 0, 0]])]

/-- `SmoothBass.melodic_patterns` (chromatic entries are Python floats). -/
def melodic_patterns : List (PyStr × List ℚ) :=
  [(s_root_fifth, [0, 4]),
   (s_walking, [0, 1, 2, 4]),
   (s_chord_tones, [0, 2, 4, 6]),
   (s_chromatic, [0, 1/2, 1, 3/2]),
   (s_octave_jump, [0, 7, 0, 4])]

/-- Positional pattern-kind choice inside `SmoothBass.generate_line`
(lines 146-151): compares the chord index against 30% / 70% of the
progression length. -/
def bass_position_section (i n : ℕ) : PyStr :=
  if (i : ℚ) < (n : ℚ) * (3 / 10) then s_verse_a
  else if (i : ℚ) < (n : ℚ) * (7 / 10) then s_chorus
  else s_verse_b

/-- Modelled from the spec's words (§4.4): the positional section-to-pattern
rule — first ~30% of chord indices verse-like, middle ~40% chorus-like,
remainder verse-like again. -/
def positional_kind_spec (i n : ℕ) : PyStr :=
  if (i : ℚ) < (3 / 10) * (n : ℚ) then s_verse_a
  else if (i : ℚ) < (7 / 10) * (n : ℚ) then s_chorus
  else s_verse_b

/-- `chords_per_bar = 4 if len(progression) > 8 else 2`;
`chord_duration = (60 / tempo) * (4 / chords_per_bar)` — derived from the
tempo, not from the requested duration. -/
def bass_chord_duration (tempo : ℚ) (n : ℕ) : ℚ :=
  (60 / tempo) * (4 / (if 8 < n then (4 : ℚ) else 2))

/-- The step loop of `SmoothBass._generate_bass_line_for_chord`, threading
`current_note` and `note_index`; emits `(step, pitch)` pairs for hits and
returns the final `current_note`. -/
def bass_steps_go (avail : List ℤ) (mt : PyStr) (mp : List ℚ) :
    List ℕ → ℕ → ℤ → ℕ → (List (ℕ × ℤ) × ℤ)
  | [], _, cur, _ => ([], cur)
  | hit :: rest, s, cur, ni =>
    if hit ≠ 0 then
      let note : ℤ :=
        if mt = s_chromatic then cur + pyInt (mp.getD (ni % mp.length) 0)
        else avail.getD (pyMod (pyInt (mp.getD (ni % mp.length) 0)) avail.length) 0
      let r := bass_steps_go avail mt mp rest (s + 1) note (ni + 1)
      ((s, note) :: r.1, r.2)
    else
      bass_steps_go avail mt mp rest (s + 1) cur ni

/-- `SmoothBass._generate_bass_line_for_chord`. -/
def generate_bass_line_for_chord (scale : List ℤ) (sym : PyStr)
    (pattern : List ℕ) (start_note : Option ℤ) (mov : ℕ) :
    Option (List (ℕ × ℤ) × ℤ) :=
  (chord_to_bass_notes scale sym).bind fun avail =>
    (listChoice melodic_patterns mov).map fun mpat =>
      bass_steps_go avail mpat.1 mpat.2 pattern 0 (start_note.getD (avail.getD 0 0)) 0

/-- The per-chord loop of `SmoothBass.generate_line`: the running time is
checked against `start_time + duration` only at chord boundaries; note starts
within a chord are `t + step * sixteenth` for steps `0..15`, with the timing
jitter added to the start after the end is computed. -/
def generate_line_go (scale : List ℤ) (n : ℕ) (st dur cd sixteenth : ℚ)
    (patC movC : ℕ → ℕ) (vel : ℕ → ℕ → ℤ) (jt : ℕ → ℕ → ℚ) :
    List PyStr → ℕ → ℚ → Option ℤ → Option (List Note)
  | [], _, _, _ => some []
  | ch :: rest, i, t, last =>
    if st + dur ≤ t then some []
    else
      let pats := (assocFind rhythmic_patterns (bass_position_section i n)).getD
        ((assocFind rhythmic_patterns s_verse_a).getD [])
      (listChoice pats (patC i)).bind fun rhythm =>
        (generate_bass_line_for_chord scale ch rhythm last (movC i)).bind fun res =>
          (generate_line_go scale n st dur cd sixteenth patC movC vel jt
              rest (i + 1) (t + cd) (some res.2)).map fun ns =>
            (res.1.map fun p =>
              { pitch := p.2
                start := (t + (p.1 : ℚ) * sixteenth) + jt i p.1
                stop := (t + (p.1 : ℚ) * sixteenth) + sixteenth * (8 / 10)
                velocity := vel i p.1 }) ++ ns

/-- `SmoothBass.generate_line`. -/
def generate_line (scale : List ℤ) (tempo : ℚ) (prog : List PyStr)
    (st dur : ℚ) (patC movC : ℕ → ℕ) (vel : ℕ → ℕ → ℤ) (jt : ℕ → ℕ → ℚ) :
    Option Instrument :=
  let cd := bass_chord_duration tempo prog.length
  (generate_line_go scale prog.length st dur cd (cd / 4) patC movC vel jt
      prog 0 st none).map
    fun ns => { program := 33, isDrum := false, notes := ns }

lemma comping_steps_go_mem (v : List ℤ) (t sx : ℚ) (jt : ℕ → ℚ) (jv : ℕ → ℤ) :
    ∀ (rhythm : List ℕ) (s0 : ℕ) (n : Note),
      n ∈ comping_steps_go v t sx jt jv rhythm s0 →
      ∃ s, s0 ≤ s ∧ s < 4 ∧ rhythm.getD (s - s0) 0 ≠ 0 ∧
        n.start = (t + (s : ℚ) * sx) + jt s ∧
        n.stop = (t + (s : ℚ) * sx) + sx * 2 := by
  intro rhythm
  induction rhythm with
  | nil => intro s0 n h; simp [comping_steps_go] at h
  | cons hit rest ih =>
    intro s0 n h
    rw [comping_steps_go] at h
    rcases List.mem_append.mp h with h1 | h2
    · by_cases hc : hit ≠ 0 ∧ s0 < 4
      · rw [if_pos hc] at h1
        obtain ⟨p, hp, rfl⟩ := List.mem_map.mp h1
        exact ⟨s0, le_refl _, hc.2, by simpa using hc.1, rfl, rfl⟩
      · rw [if_neg hc] at h1
        simp at h1
    · obtain ⟨s, hs1, hs2, hs3, hs4, hs5⟩ := ih (s0 + 1) n h2
      refine ⟨s, by omega, hs2, ?_, hs4, hs5⟩
      have hss : s - s0 = (s - (s0 + 1)) + 1 := by omega
      rw [hss]
      simpa using hs3

lemma generate_comping_go_mem (scale : List ℤ) (rhythm : List ℕ)
    (st dur cd : ℚ) (jt : ℕ → ℕ → ℚ) (jv : ℕ → ℕ → ℤ) :
    ∀ (rest : List PyStr) (c0 : ℕ) (t : ℚ) (ns : List Note) (n : Note),
      generate_comping_go scale rhythm st dur cd jt jv rest c0 t = some ns →
      n ∈ ns →
      ∃ k s : ℕ, k < rest.length ∧ s < 4 ∧ rhythm.getD s 0 ≠ 0 ∧
        n.start = (t + (k : ℚ) * cd + (s : ℚ) * (cd / 4)) + jt (c0 + k) s ∧
        n.stop = (t + (k : ℚ) * cd + (s : ℚ) * (cd / 4)) + (cd / 4) * 2 := by
  intro rest
  induction rest with
  | nil =>
    intro c0 t ns n hg hm
    rw [generate_comping_go] at hg
    cases hg
    simp at hm
  | cons ch rest ih =>
    intro c0 t ns n hg hm
    rw [generate_comping_go] at hg
    by_cases hbr : st + dur ≤ t
    · rw [if_pos hbr] at hg
      cases hg
      simp at hm
    · rw [if_neg hbr] at hg
      cases hv : get_chord_voicing scale ch 4 s_rootless with
      | none => rw [hv] at hg; simp at hg
      | some v =>
        rw [hv] at hg
        simp only [Option.some_bind] at hg
        cases hr : generate_comping_go scale rhythm st dur cd jt jv rest (c0 + 1) (t + cd) with
        | none => rw [hr] at hg; simp at hg
        | some ns2 =>
          rw [hr] at hg
          simp only [Option.map_some'] at hg
          cases hg
          rcases List.mem_append.mp hm with h1 | h2
          · obtain ⟨s, _, hs2, hs3, hs4, hs5⟩ :=
              comping_steps_go_mem v t (cd / 4) (jt c0) (jv c0) rhythm 0 n h1
            refine ⟨0, s, by simp, hs2, by simpa using hs3, ?_, ?_⟩
            · rw [hs4]; push_cast; ring_nf
            · rw [hs5]; push_cast; ring_nf
          · obtain ⟨k, s, hk, hs2, hs3, hs4, hs5⟩ := ih (c0 + 1) (t + cd) ns2 n hr h2
            refine ⟨k + 1, s, by simpa using Nat.add_lt_add_right hk 1, hs2, hs3, ?_, ?_⟩
            · rw [hs4]
              have : c0 + 1 + k = c0 + (k + 1) := by omega
              rw [this]; push_cast; ring_nf
            · rw [hs5]; push_cast; ring_nf

lemma generate_comping_elim (scale : List ℤ) (prog : List PyStr) (st dur : ℚ)
    (pc : ℕ) (jt : ℕ → ℕ → ℚ) (jv : ℕ → ℕ → ℤ) (instr : Instrument)
    (hgen : generate_comping scale prog st dur pc jt jv = some instr) :
    ∃ rhythm ns, selected_comp_rhythm prog.length pc = some rhythm ∧
      prog.length ≠ 0 ∧
      generate_comping_go scale rhythm st dur (dur / (prog.length : ℚ)) jt jv
        prog 0 st = some ns ∧
      instr = ⟨0, false, ns⟩ := by
  unfold generate_comping at hgen
  cases hr : selected_comp_rhythm prog.length pc with
  | none => rw [hr] at hgen; simp at hgen
  | some rhythm =>
    rw [hr] at hgen
    simp only [Option.some_bind] at hgen
    by_cases h0 : prog.length = 0
    · rw [if_pos h0] at hgen; simp at hgen
    · rw [if_neg h0] at hgen
      cases hgo : generate_comping_go scale rhythm st dur (dur / (prog.length : ℚ)) jt jv prog 0 st with
      | none => rw [hgo] at hgen; simp at hgen
      | some ns =>
        rw [hgo] at hgen
        simp only [Option.map_some'] at hgen
        cases hgen
        exact ⟨rhythm, ns, rfl, h0, hgo, rfl⟩

/-- With zero timing jitter, every note the comping generator emits for a
section of positive duration stays within the section with `start < end`. -/
lemma generate_comping_in_bounds (scale : List ℤ) (prog : List PyStr)
    (st dur : ℚ) (pc : ℕ) (jv : ℕ → ℕ → ℤ) (instr : Instrument)
    (hdur : 0 < dur)
    (hgen : generate_comping scale prog st dur pc (fun _ _ => 0) jv = some instr) :
    ∀ n ∈ instr.notes, st ≤ n.start ∧ n.start < st + dur ∧ n.start < n.stop := by
  obtain ⟨rhythm, ns, hr, h0, hgo, rfl⟩ := generate_comping_elim _ _ _ _ _ _ _ _ hgen
  intro n hn
  obtain ⟨k, s, hk, hs, hhit, hstart, hstop⟩ :=
    generate_comping_go_mem scale rhythm st dur (dur / (prog.length : ℚ))
      (fun _ _ => 0) jv prog 0 st ns n hgo hn
  have hL : (1 : ℚ) ≤ (prog.length : ℚ) := by exact_mod_cast Nat.one_le_iff_ne_zero.mpr h0
  have hLpos : (0 : ℚ) < (prog.length : ℚ) := by linarith
  have hcd : 0 < dur / (prog.length : ℚ) := div_pos hdur hLpos
  have hdureq : (prog.length : ℚ) * (dur / (prog.length : ℚ)) = dur := by
    field_simp
  have hk1 : (k : ℚ) + 1 ≤ (prog.length : ℚ) := by exact_mod_cast hk
  have hs3 : (s : ℚ) ≤ 3 := by exact_mod_cast Nat.lt_succ_iff.mp hs
  have hknn : (0 : ℚ) ≤ (k : ℚ) := Nat.cast_nonneg k
  have hsnn : (0 : ℚ) ≤ (s : ℚ) := Nat.cast_nonneg s
  rw [hstart, hstop]
  refine ⟨?_, ?_, ?_⟩
  · nlinarith
  · nlinarith
  · nlinarith

/-- C1 counterexample: `SmoothBass.generate_line` checks the section bound
only at chord boundaries, and its tempo-derived chord duration need not
divide the section: for a 2-chord progression at tempo 90 over `[0, 2)`
(with zero jitter) it emits a note starting at `14/3 ≥ 2`, past the section
end, instead of discarding it. -/
theorem generate_line_overshoots_section :
    ((generate_line (get_scale_degrees_bass ("C".data)) 90 [s_Imaj7, s_V7] 0 2
        (fun _ => 0) (fun _ => 0) (fun _ _ => 80) (fun _ _ => 0)).map fun instr =>
      instr.notes.any fun n => decide ((0 : ℚ) + 2 ≤ n.start)) = some true := by
  decide

/-- C7 (amended): comping divides the section into `len(progression)` equal
chord durations, but subdivides each chord at quarter-chord resolution
(`chord_duration / 4`) and emits only pattern steps with index `< 4`, while
the bass chord duration is tempo-derived
(`(60/tempo) * (4 / (4 if len > 8 else 2))`), independent of the section
duration. -/
theorem comping_quarter_grid (scale : List ℤ) (prog : List PyStr)
    (st dur : ℚ) (pc : ℕ) (jv : ℕ → ℕ → ℤ) (instr : Instrument)
    (rhythm : List ℕ)
    (hr : selected_comp_rhythm prog.length pc = some rhythm)
    (hgen : generate_comping scale prog st dur pc (fun _ _ => 0) jv = some instr) :
    (∀ n ∈ instr.notes, ∃ k s : ℕ, k < prog.length ∧ s < 4 ∧
        rhythm.getD s 0 ≠ 0 ∧
        n.start = st + (k : ℚ) * (dur / (prog.length : ℚ)) +
          (s : ℚ) * ((dur / (prog.length : ℚ)) / 4)) ∧
    ∀ (tempo : ℚ) (m : ℕ),
      bass_chord_duration tempo m =
        (60 / tempo) * (4 / (if 8 < m then (4 : ℚ) else 2)) := by
  obtain ⟨rhythm2, ns, hr2, h0, hgo, rfl⟩ := generate_comping_elim _ _ _ _ _ _ _ _ hgen
  have hrr : rhythm2 = rhythm := Option.some.inj (hr2.symm.trans hr)
  subst hrr
  refine ⟨?_, fun tempo m => rfl⟩
  intro n hn
  obtain ⟨k, s, hk, hs, hhit, hstart, _⟩ :=
    generate_comping_go_mem scale rhythm2 st dur (dur / (prog.length : ℚ))
      (fun _ _ => 0) jv prog 0 st ns n hgo hn
  exact ⟨k, s, hk, hs, hhit, by rw [hstart]; ring⟩

/-- Witness for C7 (amended): the onset shape at the first note of the
one-chord comping run over `[0, 16)`, and the bass chord duration for a
2-chord progression at tempo 90. -/
theorem comping_quarter_grid_witness :
    ((Note.mk 64 0 8 65).start =
        0 + (0 : ℚ) * ((16 : ℚ) / (([s_Imaj7] : List PyStr).length : ℚ)) +
          (0 : ℚ) * (((16 : ℚ) / (([s_Imaj7] : List PyStr).length : ℚ)) / 4)) ∧
    bass_chord_duration 90 2 =
      (60 / 90) * (4 / (if 8 < 2 then (4 : ℚ) else 2)) := by
  have h := comping_quarter_grid (get_scale_degrees ("C".data)) [s_Imaj7] 0 16 2
    (fun _ _ => 0)
    (Instrument.mk 0 false
      [⟨64, 0, 8, 65⟩, ⟨67, 0, 8, 65⟩, ⟨71, 0, 8, 65⟩, ⟨74, 0, 8, 65⟩])
    [1, 0, 0, 0, 0, 0, 1, 0, 0, 0, 0, 0, 1, 0, 0, 0] (by decide) (by decide)
  refine ⟨?_, h.2 90 2⟩
  obtain ⟨k, s, hk, hs, hhit, hstart⟩ := h.1 (Note.mk 64 0 8 65) (by decide)
  have hk1 : k < 1 := by simpa using hk
  interval_cases k
  interval_cases s <;> first
    | exact hstart
    | (exfalso; revert hstart; decide)

/-- C7 counterexample: on a one-chord progression over `[0, 16)` the selected
pattern marks steps 0, 6 and 12, yet comping emits exactly the four voicing
notes of step 0 (all starting at time 0): the marked steps 6 and 12, whose
16th-grid onsets (6 and 12) lie inside the section, produce no events. -/
theorem comping_skips_marked_step :
    ((generate_comping (get_scale_degrees ("C".data)) [s_Imaj7] 0 16 2
        (fun _ _ => 0) (fun _ _ => 0)).map fun instr =>
      decide (instr.notes.length = 4) &&
        instr.notes.all fun n => decide (n.start = 0)) = some true ∧
    selected_comp_rhythm 1 2 = some [1, 0, 0, 0, 0, 0, 1, 0, 0, 0, 0, 0, 1, 0, 0, 0] := by
  constructor
  · decide
  · decide

/-- C6 counterexample: on a 10-chord progression the comping generator uses
the chorus pattern set for every chord — including chord 0, where the
positional rule demands the verse-like set. -/
theorem comping_kind_not_positional :
    comping_section 10 = s_chorus ∧ positional_kind_spec 0 10 = s_verse_a ∧
      s_chorus ≠ s_verse_a := by
  refine ⟨rfl, by decide, by decide⟩

/-- C6 (amended): the bass generator selects its pattern kind positionally by
the 0.3/0.7 split of the spec, independent of the section name; the comping
generator instead selects a single pattern kind per call from the progression
length (≤ 4 intro, ≤ 8 verse_a, otherwise chorus). -/
theorem pattern_kind_selection :
    (∀ i n : ℕ, bass_position_section i n = positional_kind_spec i n) ∧
    (∀ n : ℕ, comping_section n =
      if n ≤ 4 then s_intro else if n ≤ 8 then s_verse_a else s_chorus) := by
  constructor
  · intro i n
    simp [bass_position_section, positional_kind_spec, mul_comm]
  · intro n
    rfl

lemma parse_bass_root_I (q : PyStr) : parse_bass_root ('I' :: q) = some 0 := rfl

/-- C4: the prefix matching in `_get_chord_voicing` / `_chord_to_notes` is not
longest-prefix: `startswith(('ii','iii','vi','vii'))` succeeds on `iii7` via
the shorter token `ii`, and the subsequent two-character slice resolves
`iii7` to degree index 1 with the corrupted quality `i7` (hence a plain
triad), and `vii7` to degree index 5 — the `iii` and `vii` entries of
`degree_map` are unreachable from this branch. -/
theorem prefix_matching_truncates :
    parse_piano s_iii7 = some (1, ['i', '7']) ∧
    parse_chords s_iii7 = some (1, ['i', '7']) ∧
    parse_piano s_vii7 = some (5, ['i', '7']) ∧
    get_chord_voicing (get_scale_degrees ("C".data)) s_iii7 4 s_rootless =
      some [66, 69, 73] := by
  refine ⟨by decide, by decide, by decide, by decide⟩

/-- C10: for every chord symbol whose root resolves, the bass candidate pool
is exactly the offsets 0, 3, 7, 10, 12 above the resolved scale-degree root;
the quality suffix is never consulted (any suffix after `I` yields the same
pool), so major-quality chords receive the minor third (+3) and minor seventh
(+10), unlike the piano block voicing of `Imaj7`. -/
theorem bass_pitch_pool (key : PyStr) (sym : PyStr) (d : ℕ)
    (hd : parse_bass_root sym = some d) :
    (chord_to_bass_notes (get_scale_degrees_bass key) sym =
      some [(get_scale_degrees_bass key).getD d 0,
            (get_scale_degrees_bass key).getD d 0 + 3,
            (get_scale_degrees_bass key).getD d 0 + 7,
            (get_scale_degrees_bass key).getD d 0 + 10,
            (get_scale_degrees_bass key).getD d 0 + 12]) ∧
    (∀ q1 q2 : PyStr, chord_to_bass_notes (get_scale_degrees_bass key) ('I' :: q1) =
      chord_to_bass_notes (get_scale_degrees_bass key) ('I' :: q2)) ∧
    (chord_to_bass_notes (get_scale_degrees_bass ("C".data)) s_Imaj7 =
        some [36, 39, 43, 46, 48] ∧
      get_chord_voicing (get_scale_degrees ("C".data)) s_Imaj7 4 s_block =
        some [60, 64, 67, 71]) := by
  refine ⟨?_, ?_, by decide, by decide⟩
  · simp [chord_to_bass_notes, hd]
  · intro q1 q2
    simp [chord_to_bass_notes, parse_bass_root_I]

/-- Witness for C10 at `V7` in C (degree 4, bass root 43), with the
quality-independence conjunct instantiated at the suffixes `maj7` and `7`. -/
theorem bass_pitch_pool_witness :
    (chord_to_bass_notes (get_scale_degrees_bass ("C".data)) s_V7 =
      some [(get_scale_degrees_bass ("C".data)).getD 4 0,
            (get_scale_degrees_bass ("C".data)).getD 4 0 + 3,
            (get_scale_degrees_bass ("C".data)).getD 4 0 + 7,
            (get_scale_degrees_bass ("C".data)).getD 4 0 + 10,
            (get_scale_degrees_bass ("C".data)).getD 4 0 + 12]) ∧
    (chord_to_bass_notes (get_scale_degrees_bass ("C".data)) ('I' :: s_maj7) =
      chord_to_bass_notes (get_scale_degrees_bass ("C".data)) ('I' :: s_dom7)) ∧
    (chord_to_bass_notes (get_scale_degrees_bass ("C".data)) s_Imaj7 =
        some [36, 39, 43, 46, 48] ∧
      get_chord_voicing (get_scale_degrees ("C".data)) s_Imaj7 4 s_block =
        some [60, 64, 67, 71]) :=
  ⟨(bass_pitch_pool ("C".data) s_V7 4 (by decide)).1,
   (bass_pitch_pool ("C".data) s_V7 4 (by decide)).2.1 s_maj7 s_dom7,
   (bass_pitch_pool ("C".data) s_V7 4 (by decide)).2.2⟩

-- Arrangement structure tables (`TrackComposer`).

/-- `TrackComposer.structures`. -/
def structures : List (PyStr × List PyStr) :=
  [(s_standard, [s_intro, s_verse_a, s_chorus, s_verse_b, s_chorus, s_outro]),
   (s_extended,
    [s_intro, s_verse_a, s_chorus, s_verse_b, s_chorus, s_bridge, s_chorus, s_outro]),
   (s_simple, [s_intro, s_verse_a, s_verse_b, s_chorus, s_outro]),
   (s_jazz_standard, [s_intro, s_head, s_solo_section, s_head, s_outro])]

/-- `TrackComposer.section_lengths` (note: no `chorus_2` entry). -/
def section_lengths : List (PyStr × ℕ) :=
  [(s_intro, 8), (s_verse_a, 16), (s_verse_b, 16), (s_chorus, 16),
   (s_bridge, 8), (s_solo_section, 32), (s_head, 16), (s_outro, 8)]

/-- `TrackComposer.generate_structure`: a known style returns its template, an
unknown style picks uniformly among the stored templates. -/
def generate_structure (style : PyStr) (choice : ℕ) : List PyStr :=
  match assocFind structures style with
  | some s => s
  | none => (structures.map Prod.snd).getD (choice % structures.length) []

/-- The timing loop of `TrackComposer.create_complete_arrangement`
(lines 243-251): `self.section_lengths[section]` is a direct dict index with
no fallback, so an unknown section kind raises `KeyError` (modelled `none`). -/
def timeline_go (tempo : ℚ) : List PyStr → ℚ → Option (List (PyStr × ℚ × ℚ))
  | [], _ => some []
  | k :: rest, t =>
    (assocFind section_lengths k).bind fun bars =>
      let d := (60 / tempo) * 4 * (bars : ℚ)
      (timeline_go tempo rest (t + d)).map fun tl => (k, t, d) :: tl

/-- `TrackComposer.create_complete_arrangement` (structure and timing). -/
def create_complete_arrangement (style : PyStr) (choice : ℕ) (tempo : ℚ) :
    Option (List PyStr × List (PyStr × ℚ × ℚ)) :=
  (timeline_go tempo (generate_structure style choice) 0).map fun tl =>
    (generate_structure style choice, tl)

-- Drum patterns (`HipHopDrums`).

/-- `HipHopDrums.drum_map`. -/
def drum_map : List (PyStr × ℤ) :=
  [(s_kick, 36), (s_snare, 38), (s_hihat_closed, 42), (s_hihat_open, 46),
   (s_crash, 49), (s_ride, 51), (s_rim, 37), (s_tom_low, 41),
   (s_tom_mid, 47), (s_tom_high, 50)]

/-- `HipHopDrums.patterns` (drum name → 16th grid, in insertion order). -/
def drum_patterns : List (PyStr × List (PyStr × List ℕ)) :=
  [(s_verse_a,
    [(s_kick, [1, 0, 0, 0, 0, 0, 1, 0, 1, 0, 0, 0, 0, 0, 0, 0]),
     (s_snare, [0, 0, 0, 0, 1, 0, 0, 0, 0, 0, 0, 0, 1, 0, 0, 0]),
     (s_hihat_closed, [1, 0, 1, 0, 1, 0, 1, 0, 1, 0, 1, 0, 1, 0, 1, 0]),
     (s_hihat_open, [0, 0, 0, 1, 0, 0, 0, 1, 0, 0, 0, 1, 0, 0, 0, 1])]),
   (s_verse_b,
    [(s_kick, [1, 0, 0, 1, 0, 0, 1, 0, 1, 0, 0, 0, 0, 0, 1, 0]),
     (s_snare, [0, 0, 0, 0, 1, 0, 0, 0, 0, 0, 1, 0, 1, 0, 0, 0]),
     (s_hihat_closed, [1, 0, 1, 0, 0, 1, 1, 0, 1, 0, 0, 1, 0, 1, 1, 0]),
     (s_rim, [0, 0, 0, 0, 0, 0, 0, 1, 0, 0, 0, 0, 0, 0, 0, 1])]),
   (s_chorus,
    [(s_kick, [1, 0, 0, 0, 1, 0, 1, 0, 1, 0, 0, 1, 0, 0, 1, 0]),
     (s_snare, [0, 0, 0, 0, 1, 0, 0, 0, 0, 0, 0, 0, 1, 0, 0, 0]),
     (s_hihat_closed, [1, 1, 0, 1, 0, 1, 1, 1, 1, 1, 0, 1, 0, 1, 1, 1]),
     (s_crash, [1, 0, 0, 0, 0, 0, 0, 0, 0, 0, 0, 0, 0, 0, 0, 0])]),
   (s_chorus_2,
    [(s_kick, [1, 0, 0, 1, 0, 0, 1, 0, 1, 0, 1, 0, 0, 0, 1, 0]),
     (s_snare, [0, 0, 1, 0, 1, 0, 0, 1, 0, 0, 0, 0, 1, 0, 0, 1]),
     (s_hihat_closed, [0, 1, 0, 1, 0, 1, 0, 1, 0, 1, 0, 1, 0, 1, 0, 1]),
     (s_hihat_open, [1, 0, 0, 0, 0, 0, 1, 0, 1, 0, 0, 0, 0, 0, 1, 0])]),
   (s_outro,
    [(s_kick, [1, 0, 0, 0, 0, 0, 0, 0, 1, 0, 0, 0, 0, 0, 0, 0]),
     (s_snare, [0, 0, 0, 0, 1, 0, 0, 0, 0, 0, 0, 0, 1, 0, 0, 0]),
     (s_hihat_closed, [1, 0, 0, 1, 0, 0, 1, 0, 1, 0, 0, 1, 0, 0, 1, 0]),
     (s_ride, [1, 0, 1, 0, 1, 0, 1, 0, 1, 0, 1, 0, 1, 0, 1, 0])])]

/-- `self.patterns.get(section, self.patterns['verse_a'])`. -/
def drum_pattern_set (kind : PyStr) : List (PyStr × List ℕ) :=
  (assocFind drum_patterns kind).getD ((assocFind drum_patterns s_verse_a).getD [])

/-- Per-drum base velocities in `generate_pattern` (default 80). -/
def drum_base_velocity (d : PyStr) : ℤ :=
  (assocFind
    [(s_kick, 100), (s_snare, 95), (s_hihat_closed, 70), (s_hihat_open, 80),
     (s_crash, 110), (s_ride, 75), (s_rim, 60)] d).getD 80

/-- `HipHopDrums._add_pattern_variation`, with the two `random.random()`
thresholds (5% add/remove gate, 30% removal) as Boolean oracles indexed by
drum position and step. -/
def add_pattern_variation (varA varB : ℕ → ℕ → Bool)
    (ps : List (PyStr × List ℕ)) : List (PyStr × List ℕ) :=
  ps.enum.map fun di =>
    (di.2.1, di.2.2.enum.map fun si =>
      if varA di.1 si.1 then
        if si.2 = 0 ∧ (di.2.1 = s_hihat_closed ∨ di.2.1 = s_rim) then 1
        else if si.2 = 1 ∧ varB di.1 si.1 then 0
        else si.2
      else si.2)

/-- One bar of `generate_pattern`: steps run until `step_time >= end_time`
(the `break`); each active drum gets a humanized note (`max(0, ...)` timing
clamp, velocity clamped to `[1, 127]`). -/
def drum_bar_notes (ps : List (PyStr × List ℕ)) (barStart sixteenth endT : ℚ)
    (jt : ℕ → ℕ → ℚ) (jv : ℕ → ℕ → ℤ) : List Note :=
  ((List.range 16).takeWhile fun (s : ℕ) =>
      decide (barStart + (s : ℚ) * sixteenth < endT)).flatMap fun (s : ℕ) =>
    ps.enum.filterMap fun di =>
      if s < di.2.2.length ∧ 0 < di.2.2.getD s 0 then
        some
          { pitch := (assocFind drum_map di.2.1).getD 36
            start := max 0 (barStart + (s : ℚ) * sixteenth + jt s di.1)
            stop := max 0 (barStart + (s : ℚ) * sixteenth + jt s di.1) +
              sixteenth * (1 / 2)
            velocity := max 1 (min 127 (drum_base_velocity di.2.1 + jv s di.1)) }
      else none

/-- The `while current_time < end_time` bar loop, threading the (possibly
varied) pattern set from bar to bar. -/
def drum_bars_go (st barDur sixteenth endT : ℚ) (vary : ℕ → Bool)
    (varA varB : ℕ → ℕ → ℕ → Bool) (jt : ℕ → ℕ → ℕ → ℚ)
    (jv : ℕ → ℕ → ℕ → ℤ) : ℕ → ℕ → List (PyStr × List ℕ) → List Note
  | 0, _, _ => []
  | rem + 1, b, ps =>
    let ps2 := if vary b then add_pattern_variation (varA b) (varB b) ps else ps
    drum_bar_notes ps2 (st + (b : ℚ) * barDur) sixteenth endT (jt b) (jv b) ++
      drum_bars_go st barDur sixteenth endT vary varA varB jt jv rem (b + 1) ps2

/-- `HipHopDrums.generate_pattern`.  The bar loop runs
`⌈duration / bar_duration⌉` times (the `while current_time < end_time` count
for a positive bar duration, i.e. a positive tempo). -/
def generate_drum_pattern (tempo st dur : ℚ) (kind : PyStr) (vary : ℕ → Bool)
    (varA varB : ℕ → ℕ → ℕ → Bool) (jt : ℕ → ℕ → ℕ → ℚ)
    (jv : ℕ → ℕ → ℕ → ℤ) : Instrument :=
  let barDur := (60 / tempo) * 4
  let sixteenth := barDur / 16
  let nBars := if 0 < barDur then (Int.ceil (dur / barDur)).toNat else 0
  { program := 0
    isDrum := true
    notes := drum_bars_go st barDur sixteenth (st + dur) vary varA varB jt jv
      nBars 0 (drum_pattern_set kind) }

lemma assocFind_mem {α : Type} (l : List (PyStr × α)) (k : PyStr) (v : α)
    (h : assocFind l k = some v) : (k, v) ∈ l := by
  induction l with
  | nil => simp [assocFind] at h
  | cons e r ih =>
    obtain ⟨a, b⟩ := e
    by_cases hk : a = k
    · rw [assocFind, if_pos hk] at h
      subst hk
      cases h
      exact List.mem_cons_self _ _
    · rw [assocFind, if_neg hk] at h
      exact List.mem_cons_of_mem _ (ih h)

lemma timeline_go_builtin (s : List PyStr) (hs : s ∈ structures.map Prod.snd) :
    ∀ (tempo : ℚ) (t : ℚ), (timeline_go tempo s t).isSome = true := by
  fin_cases hs <;> intro tempo t <;> rfl

/-- C3 counterexample: the section-length lookup of
`create_complete_arrangement` indexes `section_lengths` directly, with no
fallback: the kind `chorus_2` (known to the chord and drum tables) raises
`KeyError`, so timeline construction fails on a structure containing it. -/
theorem section_length_lookup_fails :
    assocFind section_lengths s_chorus_2 = none ∧
    timeline_go 90 [s_chorus_2] 0 = none ∧
    assocFind init_progressions s_chorus_2 ≠ none ∧
    assocFind drum_patterns s_chorus_2 ≠ none := by
  refine ⟨by decide, by decide, by decide, by decide⟩

/-- C3 (amended): the drum-pattern and chord-progression lookups fall back to
`verse_a` for every unknown section kind and never fail, but the
section-length lookup has no fallback; timeline construction still completes
for every structure style because all stored structure templates contain only
kinds present in the length table. -/
theorem fallback_lookups :
    (∀ kind : PyStr, assocFind drum_patterns kind = none →
      drum_pattern_set kind = drum_pattern_set s_verse_a) ∧
    (∀ (kind : PyStr) (c : ℕ), assocFind init_progressions kind = none →
      selected_template init_progressions kind c =
        selected_template init_progressions s_verse_a c) ∧
    (∀ (style : PyStr) (choice : ℕ) (tempo : ℚ),
      (timeline_go tempo (generate_structure style choice) 0).isSome = true) := by
  refine ⟨?_, ?_, ?_⟩
  · intro kind h
    rw [drum_pattern_set, h]
    rfl
  · intro kind c h
    rw [selected_template, selected_template, progressionKey, progressionKey, h]
    rfl
  · intro style choice tempo
    have hmem : generate_structure style choice ∈ structures.map Prod.snd := by
      rw [generate_structure]
      cases hf : assocFind structures style with
      | some s => exact List.mem_map_of_mem Prod.snd (assocFind_mem _ _ _ hf)
      | none =>
        have hlt : choice % (structures.map Prod.snd).length <
            (structures.map Prod.snd).length := Nat.mod_lt _ (by decide)
        rw [show (structures.length) = (structures.map Prod.snd).length by simp,
          List.getD_eq_getElem?_getD, List.getElem?_eq_getElem hlt]
        exact List.getElem_mem hlt
    exact timeline_go_builtin _ hmem tempo 0

/-- Witness for C3 (amended), at the unknown kind `zzz` and unknown style
`zzz`. -/
theorem fallback_lookups_witness :
    drum_pattern_set ("zzz".data) = drum_pattern_set s_verse_a ∧
    selected_template init_progressions ("zzz".data) 0 =
      selected_template init_progressions s_verse_a 0 ∧
    (timeline_go 90 (generate_structure ("zzz".data) 0) 0).isSome = true :=
  ⟨fallback_lookups.1 ("zzz".data) (by decide),
   fallback_lookups.2.1 ("zzz".data) 0 (by decide),
   fallback_lookups.2.2 ("zzz".data) 0 90⟩

-- Swing passes.

/-- `JazzHipHopGenerator.apply_swing` per-note update: fractional beat
position `(start * tempo / 60) % 1`; strict middle band `0.4 < pos < 0.6`;
both start and end shifted by `0.15 * (60 / tempo) / 4` (0.15 of a
sixteenth). -/
def swing_note (tempo : ℚ) (n : Note) : Note :=
  let beat_pos := Int.fract (n.start * tempo / 60)
  if 2 / 5 < beat_pos ∧ beat_pos < 3 / 5 then
    { n with start := n.start + (15 / 100) * (60 / tempo) / 4
             stop := n.stop + (15 / 100) * (60 / tempo) / 4 }
  else n

/-- `JazzHipHopGenerator.apply_swing`: drums skipped, all other notes passed
through `swing_note` once. -/
def apply_swing (tempo : ℚ) (instrs : List Instrument) : List Instrument :=
  instrs.map fun i =>
    if i.isDrum then i else { i with notes := i.notes.map (swing_note tempo) }

/-- `TrackComposer.apply_swing_feel` per-note update (inclusive band
`0.4 <= pos <= 0.6`, offset `swing_amount * beat_duration * 0.25`). -/
def swing_feel_note (tempo swing_amount : ℚ) (n : Note) : Note :=
  let beat_duration := 60 / tempo
  let beat_position := Int.fract (n.start / beat_duration)
  if 2 / 5 ≤ beat_position ∧ beat_position ≤ 3 / 5 then
    { n with start := n.start + swing_amount * beat_duration * (1 / 4)
             stop := n.stop + swing_amount * beat_duration * (1 / 4) }
  else n

/-- `TrackComposer.apply_swing_feel`. -/
def apply_swing_feel (tempo swing_amount : ℚ) (instrs : List Instrument) :
    List Instrument :=
  instrs.map fun i =>
    if i.isDrum then i
    else { i with notes := i.notes.map (swing_feel_note tempo swing_amount) }

/-- C8: in both swing passes a note at fractional beat position exactly 0.5
has start and end shifted later by the fixed swing offset exactly once, a
note at fractional position 0.3 is left unchanged, and percussion
instruments are never touched. -/
theorem swing_midband_shift (tempo : ℚ) :
    (∀ n : Note, Int.fract (n.start * tempo / 60) = 1 / 2 →
      swing_note tempo n =
        { n with start := n.start + (15 / 100) * (60 / tempo) / 4
                 stop := n.stop + (15 / 100) * (60 / tempo) / 4 }) ∧
    (∀ n : Note, Int.fract (n.start * tempo / 60) = 3 / 10 →
      swing_note tempo n = n) ∧
    (∀ i : Instrument, i.isDrum = true → apply_swing tempo [i] = [i]) ∧
    (∀ n : Note, Int.fract (n.start / (60 / tempo)) = 1 / 2 →
      swing_feel_note tempo (1 / 10) n =
        { n with start := n.start + (1 / 10) * (60 / tempo) * (1 / 4)
                 stop := n.stop + (1 / 10) * (60 / tempo) * (1 / 4) }) ∧
    (∀ n : Note, Int.fract (n.start / (60 / tempo)) = 3 / 10 →
      swing_feel_note tempo (1 / 10) n = n) ∧
    (∀ i : Instrument, i.isDrum = true → apply_swing_feel tempo (1 / 10) [i] = [i]) := by
  refine ⟨?_, ?_, ?_, ?_, ?_, ?_⟩
  · intro n h
    rw [swing_note]
    simp only [h]
    rw [if_pos (by norm_num)]
  · intro n h
    rw [swing_note]
    simp only [h]
    rw [if_neg (by norm_num)]
  · intro i h
    simp [apply_swing, h]
  · intro n h
    rw [swing_feel_note]
    simp only [h]
    rw [if_pos (by norm_num)]
  · intro n h
    rw [swing_feel_note]
    simp only [h]
    rw [if_neg (by norm_num)]
  · intro i h
    simp [apply_swing_feel, h]

/-- Witness for C8 at tempo 60: the beat positions 1/2 and 3/10 realized by
concrete notes, and a concrete drum instrument. -/
theorem swing_midband_shift_witness :
    swing_note 60 ⟨60, 1 / 2, 1, 80⟩ =
      ⟨60, 1 / 2 + (15 / 100) * (60 / 60) / 4, 1 + (15 / 100) * (60 / 60) / 4, 80⟩ ∧
    swing_note 60 ⟨60, 3 / 10, 1, 80⟩ = ⟨60, 3 / 10, 1, 80⟩ ∧
    apply_swing 60 [⟨0, true, [⟨36, 1 / 2, 1, 100⟩]⟩] =
      [⟨0, true, [⟨36, 1 / 2, 1, 100⟩]⟩] :=
  ⟨(swing_midband_shift 60).1 _ (by norm_num [Int.fract]),
   (swing_midband_shift 60).2.1 _ (by norm_num [Int.fract]),
   (swing_midband_shift 60).2.2.1 _ rfl⟩

-- Lead piano (`JazzPiano.generate_lead`).

/-- `JazzPiano.lead_patterns` (chromatic entries are Python floats). -/
def lead_patterns : List (PyStr × List ℚ) :=
  [(s_scalar, [0, 1, 2, 3, 2, 1, 0, -1]),
   (s_arpeggiated, [0, 2, 4, 6, 4, 2, 0]),
   (s_bluesy, [0, 2, 3, 2, 0, -1, 0]),
   (s_chromatic, [0, 1 / 2, 1, 3 / 2, 2, 3 / 2, 1, 1 / 2])]

/-- The melody-note loop of `generate_lead`: appends until 4 notes are
collected (`pattern.take 4`); chromatic patterns use `int(interval * 2)`,
others `int(interval) * 2` above the chord root. -/
def lead_melody (ptype : PyStr) (pat : List ℚ) (root : ℤ) : List ℤ :=
  (pat.take 4).map fun iv =>
    if ptype = s_chromatic then root + pyInt (iv * 2) else root + pyInt iv * 2

/-- The per-chord loop of `generate_lead`: block voicing at octave 5, one
melodic pattern chosen per chord, emission stops at the section bound
(`if note_start >= start_time + duration: break`). -/
def generate_lead_go (scale : List ℤ) (st dur cd eighth : ℚ) (patC : ℕ → ℕ)
    (vel : ℕ → ℕ → ℤ) (jt : ℕ → ℕ → ℚ) : List PyStr → ℕ → ℚ → Option (List Note)
  | [], _, _ => some []
  | ch :: rest, c, t =>
    if st + dur ≤ t then some []
    else
      (listChoice lead_patterns (patC c)).bind fun lp =>
        (get_chord_voicing scale ch 5 s_block).bind fun tones =>
          let melody := lead_melody lp.1 lp.2 (tones.getD 0 0)
          (generate_lead_go scale st dur cd eighth patC vel jt rest (c + 1) (t + cd)).map
            fun ns =>
              ((melody.enum.takeWhile fun (p : ℕ × ℤ) =>
                  decide (t + (p.1 : ℚ) * eighth < st + dur)).map fun p =>
                { pitch := p.2
                  start := (t + (p.1 : ℚ) * eighth) + jt c p.1
                  stop := (t + (p.1 : ℚ) * eighth) + eighth * (8 / 10)
                  velocity := vel c p.1 }) ++ ns

/-- `JazzPiano.generate_lead` (`chord_duration = duration / len(progression)`,
`eighth_duration = chord_duration / 2`). -/
def generate_lead (scale : List ℤ) (prog : List PyStr) (st dur : ℚ)
    (patC : ℕ → ℕ) (vel : ℕ → ℕ → ℤ) (jt : ℕ → ℕ → ℚ) : Option Instrument :=
  if prog.length = 0 then none
  else
    (generate_lead_go scale st dur (dur / (prog.length : ℚ))
        ((dur / (prog.length : ℚ)) / 2) patC vel jt prog 0 st).map
      fun ns => { program := 0, isDrum := false, notes := ns }

-- The generation pipeline (`JazzHipHopGenerator.generate_track` followed by
-- `apply_swing`, as driven by `main`).

/-- Every randomized draw of one run, as oracle functions indexed by draw
site and position (section, chord/bar, step, drum). -/
structure Oracle where
  progChoice : ℕ → ℕ
  compPat : ℕ → ℕ
  compJT : ℕ → ℕ → ℕ → ℚ
  compJV : ℕ → ℕ → ℕ → ℤ
  bassPat : ℕ → ℕ → ℕ
  bassMov : ℕ → ℕ → ℕ
  bassVel : ℕ → ℕ → ℕ → ℤ
  bassJT : ℕ → ℕ → ℕ → ℚ
  drumVary : ℕ → ℕ → Bool
  drumVarA : ℕ → ℕ → ℕ → ℕ → Bool
  drumVarB : ℕ → ℕ → ℕ → ℕ → Bool
  drumJT : ℕ → ℕ → ℕ → ℕ → ℚ
  drumJV : ℕ → ℕ → ℕ → ℕ → ℤ
  leadPat : ℕ → ℕ → ℕ
  leadVel : ℕ → ℕ → ℕ → ℤ
  leadJT : ℕ → ℕ → ℕ → ℚ

/-- The fixed song structure dict of `generate_track`. -/
def track_structure : List (PyStr × ℕ) :=
  [(s_intro, 8), (s_verse_a, 16), (s_chorus, 16), (s_verse_b, 16),
   (s_chorus_2, 16), (s_outro, 8)]

/-- The section loop of `generate_track`: per section, a progression is drawn
(threading the mutable chord catalog), drums are added for every section but
the intro, then comping, bass, and — when `'chorus' in section` — lead. -/
def generate_track_go (pscale bscale : List ℤ) (tempo : ℚ) (o : Oracle) :
    List (PyStr × ℕ) → ℕ → ℚ → Catalog → Option (List Instrument)
  | [], _, _, _ => some []
  | (kind, bars) :: rest, i, t, cat =>
    let len := (bars : ℚ) * (60 / tempo) * 4
    (get_progression cat kind bars (o.progChoice i)).bind fun pr =>
      let drums := if kind ≠ s_intro then
          [generate_drum_pattern tempo t len kind (o.drumVary i) (o.drumVarA i)
            (o.drumVarB i) (o.drumJT i) (o.drumJV i)]
        else []
      (generate_comping pscale pr.1 t len (o.compPat i) (o.compJT i)
          (o.compJV i)).bind fun piano =>
        (generate_line bscale tempo pr.1 t len (o.bassPat i) (o.bassMov i)
            (o.bassVel i) (o.bassJT i)).bind fun bass =>
          (if containsSub s_chorus kind then
              (generate_lead pscale pr.1 t len (o.leadPat i) (o.leadVel i)
                  (o.leadJT i)).map fun l => [l]
            else some []).bind fun lead =>
            (generate_track_go pscale bscale tempo o rest (i + 1) (t + len)
                pr.2).map
              fun others => drums ++ [piano] ++ [bass] ++ lead ++ others

/-- `JazzHipHopGenerator.generate_track` for a fixed key and tempo. -/
def generate_track (key : PyStr) (tempo : ℚ) (o : Oracle) :
    Option (List Instrument) :=
  generate_track_go (get_scale_degrees key) (get_scale_degrees_bass key) tempo o
    track_structure 0 0 init_progressions

/-- The whole engine run of `main`: `generate_track` then `apply_swing`. -/
def generate_and_swing (key : PyStr) (tempo : ℚ) (o : Oracle) :
    Option (List Instrument) :=
  (generate_track key tempo o).map (apply_swing tempo)

/-- C2: with the random source made an explicit oracle, the full generation
pipeline (progressions, drums, comping, bass, lead, swing) is a deterministic
function of the configuration (key, tempo; the structure is fixed) and the
oracle: two runs consuming identical draw sequences produce identical
instrument and note lists. -/
theorem generation_deterministic (key : PyStr) (tempo : ℚ) (o1 o2 : Oracle)
    (h : o1 = o2) :
    generate_and_swing key tempo o1 = generate_and_swing key tempo o2 := by
  rw [h]

/-- The all-zero draw sequence. -/
def zero_oracle : Oracle :=
  { progChoice := fun _ => 0
    compPat := fun _ => 0
    compJT := fun _ _ _ => 0
    compJV := fun _ _ _ => 0
    bassPat := fun _ _ => 0
    bassMov := fun _ _ => 0
    bassVel := fun _ _ _ => 80
    bassJT := fun _ _ _ => 0
    drumVary := fun _ _ => false
    drumVarA := fun _ _ _ _ => false
    drumVarB := fun _ _ _ _ => false
    drumJT := fun _ _ _ _ => 0
    drumJV := fun _ _ _ _ => 0
    leadPat := fun _ _ => 0
    leadVel := fun _ _ _ => 90
    leadJT := fun _ _ _ => 0 }

/-- Witness for C2: two runs at key C, tempo 90 with the same zero oracle. -/
theorem generation_deterministic_witness :
    generate_and_swing ("C".data) 90 zero_oracle =
      generate_and_swing ("C".data) 90 zero_oracle :=
  generation_deterministic ("C".data) 90 zero_oracle zero_oracle rfl

lemma generate_lead_go_bounds (scale : List ℤ) (st dur cd eighth : ℚ)
    (patC : ℕ → ℕ) (vel : ℕ → ℕ → ℤ)
    (heighth : 0 < eighth) (hcd : 0 ≤ cd) :
    ∀ (rest : List PyStr) (c0 : ℕ) (t : ℚ) (ns : List Note),
      st ≤ t →
      generate_lead_go scale st dur cd eighth patC vel (fun _ _ => 0)
        rest c0 t = some ns →
      ∀ n ∈ ns, st ≤ n.start ∧ n.start < st + dur ∧ n.start < n.stop := by
  intro rest
  induction rest with
  | nil =>
    intro c0 t ns hst hg n hn
    rw [generate_lead_go] at hg
    cases hg
    simp at hn
  | cons ch rest ih =>
    intro c0 t ns hst hg n hn
    rw [generate_lead_go] at hg
    by_cases hbr : st + dur ≤ t
    · rw [if_pos hbr] at hg
      cases hg
      simp at hn
    · rw [if_neg hbr] at hg
      cases hlp : listChoice lead_patterns (patC c0) with
      | none => rw [hlp] at hg; simp at hg
      | some lp =>
        rw [hlp] at hg
        simp only [Option.some_bind] at hg
        cases hv : get_chord_voicing scale ch 5 s_block with
        | none => rw [hv] at hg; simp at hg
        | some tones =>
          rw [hv] at hg
          simp only [Option.some_bind] at hg
          cases hr : generate_lead_go scale st dur cd eighth patC vel
              (fun _ _ => 0) rest (c0 + 1) (t + cd) with
          | none => rw [hr] at hg; simp at hg
          | some ns2 =>
            rw [hr] at hg
            simp only [Option.map_some'] at hg
            cases hg
            rcases List.mem_append.mp hn with h1 | h2
            · obtain ⟨p, hp, rfl⟩ := List.mem_map.mp h1
              have hpred := List.mem_takeWhile_imp hp
              simp only [decide_eq_true_eq] at hpred
              have hp1 : (0 : ℚ) ≤ (p.1 : ℚ) := Nat.cast_nonneg p.1
              refine ⟨?_, ?_, ?_⟩
              · simp only
                nlinarith
              · simp only
                linarith
              · simp only
                nlinarith
            · exact ih (c0 + 1) (t + cd) ns2 (by linarith) hr n h2

lemma generate_lead_bounds (scale : List ℤ) (prog : List PyStr) (st dur : ℚ)
    (patC : ℕ → ℕ) (vel : ℕ → ℕ → ℤ) (instr : Instrument)
    (hdur : 0 < dur)
    (hgen : generate_lead scale prog st dur patC vel (fun _ _ => 0) = some instr) :
    ∀ n ∈ instr.notes, st ≤ n.start ∧ n.start < st + dur ∧ n.start < n.stop := by
  unfold generate_lead at hgen
  by_cases h0 : prog.length = 0
  · rw [if_pos h0] at hgen
    simp at hgen
  · rw [if_neg h0] at hgen
    cases hgo : generate_lead_go scale st dur (dur / (prog.length : ℚ))
        ((dur / (prog.length : ℚ)) / 2) patC vel (fun _ _ => 0) prog 0 st with
    | none => rw [hgo] at hgen; simp at hgen
    | some ns =>
      rw [hgo] at hgen
      simp only [Option.map_some'] at hgen
      cases hgen
      intro n hn
      have hLpos : (0 : ℚ) < (prog.length : ℚ) := by
        exact_mod_cast Nat.pos_of_ne_zero h0
      have hcd : 0 < dur / (prog.length : ℚ) := div_pos hdur hLpos
      exact generate_lead_go_bounds scale st dur _ _ patC vel (by linarith)
        (le_of_lt hcd) prog 0 st ns (le_refl st) hgo n hn

lemma drum_bar_notes_bounds (ps : List (PyStr × List ℕ))
    (barStart sixteenth endT : ℚ) (jt : ℕ → ℕ → ℚ) (jv : ℕ → ℕ → ℤ)
    (hjt : ∀ s d, jt s d = 0) (hbs : 0 ≤ barStart) (hsx : 0 < sixteenth) :
    ∀ n ∈ drum_bar_notes ps barStart sixteenth endT jt jv,
      barStart ≤ n.start ∧ n.start < endT ∧ n.start < n.stop := by
  intro n hn
  rw [drum_bar_notes] at hn
  obtain ⟨s, hsmem, hnin⟩ := List.mem_flatMap.mp hn
  have hpred := List.mem_takeWhile_imp hsmem
  simp only [decide_eq_true_eq] at hpred
  obtain ⟨di, hdi, hf⟩ := List.mem_filterMap.mp hnin
  by_cases hc : s < di.2.2.length ∧ 0 < di.2.2.getD s 0
  · rw [if_pos hc] at hf
    cases hf
    have hs0 : (0 : ℚ) ≤ (s : ℚ) := Nat.cast_nonneg s
    have hin : (0 : ℚ) ≤ barStart + (s : ℚ) * sixteenth + 0 := by nlinarith
    have hmax : max 0 (barStart + (s : ℚ) * sixteenth + 0) =
        barStart + (s : ℚ) * sixteenth + 0 := max_eq_right hin
    refine ⟨?_, ?_, ?_⟩
    · simp only [hjt, hmax]
      nlinarith
    · simp only [hjt, hmax]
      linarith [hpred]
    · simp only [hjt, hmax]
      nlinarith
  · rw [if_neg hc] at hf
    simp at hf

lemma drum_bars_go_bounds (st barDur sixteenth endT : ℚ) (vary : ℕ → Bool)
    (varA varB : ℕ → ℕ → ℕ → Bool) (jt : ℕ → ℕ → ℕ → ℚ)
    (jv : ℕ → ℕ → ℕ → ℤ) (hjt : ∀ b s d, jt b s d = 0)
    (hst : 0 ≤ st) (hbd : 0 ≤ barDur) (hsx : 0 < sixteenth) :
    ∀ (rem b : ℕ) (ps : List (PyStr × List ℕ)),
      ∀ n ∈ drum_bars_go st barDur sixteenth endT vary varA varB jt jv rem b ps,
        st ≤ n.start ∧ n.start < endT ∧ n.start < n.stop := by
  intro rem
  induction rem with
  | zero => intro b ps n hn; simp [drum_bars_go] at hn
  | succ rem ih =>
    intro b ps n hn
    rw [drum_bars_go] at hn
    rcases List.mem_append.mp hn with h1 | h2
    · have hb0 : (0 : ℚ) ≤ (b : ℚ) := Nat.cast_nonneg b
      have hbs : (0 : ℚ) ≤ st + (b : ℚ) * barDur := by nlinarith
      obtain ⟨ha, hb2, hc2⟩ := drum_bar_notes_bounds _ _ _ _ (jt b) (jv b)
        (fun s d => hjt b s d) hbs hsx n h1
      refine ⟨?_, hb2, hc2⟩
      nlinarith
    · exact ih (b + 1) _ n h2

lemma generate_drum_pattern_bounds (tempo st dur : ℚ) (kind : PyStr)
    (vary : ℕ → Bool) (varA varB : ℕ → ℕ → ℕ → Bool)
    (jv : ℕ → ℕ → ℕ → ℤ) (htempo : 0 < tempo) (hst : 0 ≤ st) :
    ∀ n ∈ (generate_drum_pattern tempo st dur kind vary varA varB
        (fun _ _ _ => 0) jv).notes,
      st ≤ n.start ∧ n.start < st + dur ∧ n.start < n.stop := by
  intro n hn
  have hbd : (0 : ℚ) < (60 / tempo) * 4 := by positivity
  have hsx : (0 : ℚ) < ((60 / tempo) * 4) / 16 := by positivity
  exact drum_bars_go_bounds st ((60 / tempo) * 4) (((60 / tempo) * 4) / 16)
    (st + dur) vary varA varB (fun _ _ _ => 0) jv (fun _ _ _ => rfl) hst
    (le_of_lt hbd) hsx _ 0 (drum_pattern_set kind) n hn

/-- C1 (amended): with zero timing jitter, the comping, lead and drum
generators keep every emitted note inside the section —
`sectionStart ≤ start < sectionStart + sectionDuration` and `start < end` —
for positive section durations (drums additionally under the program's
standing conditions of a positive tempo and nonnegative section start).
The bass generator violates the original claim: it checks the bound only at
chord boundaries, so it can emit notes starting at or past the section end
(see the counterexample). -/
theorem voice_generator_bounds :
    (∀ (scale : List ℤ) (prog : List PyStr) (st dur : ℚ) (pc : ℕ)
        (jv : ℕ → ℕ → ℤ) (instr : Instrument), 0 < dur →
      generate_comping scale prog st dur pc (fun _ _ => 0) jv = some instr →
      ∀ n ∈ instr.notes, st ≤ n.start ∧ n.start < st + dur ∧ n.start < n.stop) ∧
    (∀ (scale : List ℤ) (prog : List PyStr) (st dur : ℚ) (patC : ℕ → ℕ)
        (vel : ℕ → ℕ → ℤ) (instr : Instrument), 0 < dur →
      generate_lead scale prog st dur patC vel (fun _ _ => 0) = some instr →
      ∀ n ∈ instr.notes, st ≤ n.start ∧ n.start < st + dur ∧ n.start < n.stop) ∧
    (∀ (tempo st dur : ℚ) (kind : PyStr) (vary : ℕ → Bool)
        (varA varB : ℕ → ℕ → ℕ → Bool) (jv : ℕ → ℕ → ℕ → ℤ),
      0 < tempo → 0 ≤ st →
      ∀ n ∈ (generate_drum_pattern tempo st dur kind vary varA varB
          (fun _ _ _ => 0) jv).notes,
        st ≤ n.start ∧ n.start < st + dur ∧ n.start < n.stop) :=
  ⟨fun scale prog st dur pc jv instr hdur hgen =>
      generate_comping_in_bounds scale prog st dur pc jv instr hdur hgen,
   fun scale prog st dur patC vel instr hdur hgen =>
      generate_lead_bounds scale prog st dur patC vel instr hdur hgen,
   fun tempo st dur kind vary varA varB jv htempo hst =>
      generate_drum_pattern_bounds tempo st dur kind vary varA varB jv htempo hst⟩

/-- Witness for C1 (amended): the first note of a concrete comping run over
`[0, 16)`, of a concrete lead run over `[0, 16)`, and of a concrete drum run
over `[0, 1/2)` each lies inside its section. -/
theorem voice_generator_bounds_witness :
    ((0 : ℚ) ≤ (Note.mk 64 0 8 65).start ∧ (Note.mk 64 0 8 65).start < 0 + 16 ∧
      (Note.mk 64 0 8 65).start < (Note.mk 64 0 8 65).stop) ∧
    ((0 : ℚ) ≤ (Note.mk 72 0 (32 / 5) 90).start ∧
      (Note.mk 72 0 (32 / 5) 90).start < 0 + 16 ∧
      (Note.mk 72 0 (32 / 5) 90).start < (Note.mk 72 0 (32 / 5) 90).stop) ∧
    ((0 : ℚ) ≤ (Note.mk 36 0 (1 / 12) 100).start ∧
      (Note.mk 36 0 (1 / 12) 100).start < 0 + 1 / 2 ∧
      (Note.mk 36 0 (1 / 12) 100).start < (Note.mk 36 0 (1 / 12) 100).stop) :=
  ⟨voice_generator_bounds.1 (get_scale_degrees ("C".data)) [s_Imaj7] 0 16 2
      (fun _ _ => 0)
      (Instrument.mk 0 false
        [⟨64, 0, 8, 65⟩, ⟨67, 0, 8, 65⟩, ⟨71, 0, 8, 65⟩, ⟨74, 0, 8, 65⟩])
      (by norm_num) (by decide) (Note.mk 64 0 8 65) (by decide),
   voice_generator_bounds.2.1 (get_scale_degrees ("C".data)) [s_Imaj7] 0 16
      (fun _ => 0) (fun _ _ => 90)
      (Instrument.mk 0 false [⟨72, 0, 32 / 5, 90⟩, ⟨74, 8, 72 / 5, 90⟩])
      (by norm_num) (by decide) (Note.mk 72 0 (32 / 5) 90) (by decide),
   voice_generator_bounds.2.2 90 0 (1 / 2) s_verse_a (fun _ => false)
      (fun _ _ _ => false) (fun _ _ _ => false) (fun _ _ _ => 0)
      (by norm_num) (by norm_num) (Note.mk 36 0 (1 / 12) 100) (by decide)⟩
